import Mathlib

/-!
Shallow embedding of the Pokédex page (`app/page.tsx`): the data model,
the catalog loader (`fetchPokemon`), the search filter (`filteredPokemon`),
the selection state, and the render-time display conversion, together with
theorems checking the specification's claims against these definitions.

JavaScript strings are modelled as Lean `String` (a list of `Char`);
`toLowerCase`/`toUpperCase` are modelled character-wise with the core
`Char.toLower`/`Char.toUpper`, which agree with JavaScript on the basic
Latin range that this code manipulates.
-/

namespace Pokedex

/- ## String helpers -/

/-- Embedding of `s.toLowerCase()`: lowercase every character. -/
def jsToLower (s : String) : String := ⟨s.data.map Char.toLower⟩

/-- Embedding of `s.toUpperCase()`: uppercase every character. -/
def jsToUpper (s : String) : String := ⟨s.data.map Char.toUpper⟩

/-- `needle` occurs contiguously inside `hay` (JS `hay.includes(needle)`,
as a proposition). -/
def isSubstrOf (needle hay : String) : Prop := needle.data <:+: hay.data

/-- Embedding of `hay.includes(needle)` (boolean substring test). -/
def strIncludes (hay needle : String) : Bool := decide (needle.data <:+: hay.data)

/-- Decimal digits of `n` (most significant first), with `fuel` bounding the
recursion depth; `fuel = n` always suffices since `n / 10 < n` for `n > 0`. -/
def natDigitsAux : Nat → Nat → List Char
  | 0, _ => []
  | fuel + 1, n =>
    if n = 0 then []
    else natDigitsAux fuel (n / 10) ++ [Char.ofNat (48 + n % 10)]

/-- Embedding of JS `Number.prototype.toString` for the nonnegative integers
this page handles: plain decimal form, no leading zeros, no padding. -/
def natToString (n : Nat) : String := if n = 0 then "0" else ⟨natDigitsAux n n⟩

/-- A character whose code point is a decimal digit (`'0'`–`'9'`). -/
def isDigitChar (c : Char) : Prop := 48 ≤ c.toNat ∧ c.toNat ≤ 57

/- ## Data model (`interface Pokemon` and the PokeAPI response shapes) -/

/-- Embedding of the page's `interface Pokemon`. `sprite` is an `Option`
because both API sprite fields are `string | null` and the JS code stores
whatever `||` yields (possibly `null`). -/
structure Pokemon where
  id : Nat
  name : String
  types : List String
  sprite : Option String
  height : Nat
  weight : Nat
deriving DecidableEq, Repr

/-- One element of `detail.types` in the API response: `{ type: { name } }`. -/
structure TypeRef where
  name : String
deriving DecidableEq, Repr

structure TypeSlot where
  type : TypeRef
deriving DecidableEq, Repr

/-- `detail.sprites.other['official-artwork']` in the API response. -/
structure ArtworkSprites where
  front_default : Option String
deriving DecidableEq, Repr

structure SpritesOther where
  official_artwork : ArtworkSprites
deriving DecidableEq, Repr

structure Sprites where
  front_default : Option String
  other : SpritesOther
deriving DecidableEq, Repr

/-- The per-item detail response consumed by the loader. -/
structure PokemonDetail where
  id : Nat
  name : String
  types : List TypeSlot
  sprites : Sprites
  height : Nat
  weight : Nat
deriving DecidableEq, Repr

/-- One element of `data.results` from the list endpoint. -/
structure PokemonRef where
  url : String
deriving DecidableEq, Repr

structure ListResponse where
  results : List PokemonRef
deriving DecidableEq, Repr

/-- JS `a || b` on two `string | null` values: `b` is used when `a` is
`null` or the empty string (both falsy). -/
def jsOrElse (a b : Option String) : Option String :=
  match a with
  | some s => if s = "" then b else some s
  | none => b

/-- The body of the arrow function mapped over `data.results`: normalize one
detail response into a `Pokemon` (lines 31–38 of `page.tsx`). -/
def normalizePokemon (d : PokemonDetail) : Pokemon :=
  { id := d.id
    name := d.name
    types := d.types.map (fun t => t.type.name)
    sprite := jsOrElse d.sprites.other.official_artwork.front_default d.sprites.front_default
    height := d.height
    weight := d.weight }

/- ## Search filter (`filteredPokemon`, lines 53–62) -/

/-- The predicate of `pokemon.filter` (lines 57–60), with the query
lowercased once as in line 55. -/
def pokemonMatches (search : String) (p : Pokemon) : Bool :=
  let query := jsToLower search
  strIncludes (jsToLower p.name) query ||
  strIncludes (natToString p.id) query ||
  p.types.any (fun t => strIncludes (jsToLower t) query)

/-- Embedding of the `filteredPokemon` memo: `if (!search) return pokemon`
(for a string, `!search` is true exactly on `""`), else filter. -/
def filteredPokemon (pokemon : List Pokemon) (search : String) : List Pokemon :=
  if search = "" then pokemon else pokemon.filter (pokemonMatches search)

/-- The render condition of the empty-state message (line 160):
`!loading && filteredPokemon.length === 0`. -/
def emptyStateShown (loading : Bool) (pokemon : List Pokemon) (search : String) : Bool :=
  !loading && (filteredPokemon pokemon search).length == 0

/- ## Catalog loader (`fetchPokemon`, lines 21–51) -/

/-- The relevant component state touched by the load cycle: the canonical
list, the loading flag, and a count of `console.error` calls (the
observability sink). There is no error field: the catch block retains no
structured error for the presentation layer. -/
structure LoadState where
  pokemon : List Pokemon
  loading : Bool
  errorLogs : Nat
deriving DecidableEq, Repr

/-- Component state at mount: empty list, `loading = true`, nothing logged. -/
def initialLoadState : LoadState := { pokemon := [], loading := true, errorLogs := 0 }

/-- Embedding of `Promise.all(data.results.map ...)` as a fallible traversal:
it succeeds with all details exactly when every per-reference fetch succeeds,
and fails when any fetch fails (all-or-nothing). -/
def fetchAllDetails (detailResp : String → Except String PokemonDetail) :
    List PokemonRef → Except String (List PokemonDetail)
  | [] => Except.ok []
  | r :: rs =>
    match detailResp r.url with
    | Except.error e => Except.error e
    | Except.ok d =>
      match fetchAllDetails detailResp rs with
      | Except.error e => Except.error e
      | Except.ok ds => Except.ok (d :: ds)

/-- The fallible part of the load cycle: the list request followed by the
joined detail requests. -/
def loadResults (listResp : Except String ListResponse)
    (detailResp : String → Except String PokemonDetail) :
    Except String (List PokemonDetail) :=
  match listResp with
  | Except.error e => Except.error e
  | Except.ok data => fetchAllDetails detailResp data.results

/-- Embedding of the `fetchPokemon` async function: the whole body is one
`try`/`catch`. On success the normalized list is stored and loading cleared;
on any failure the catch block logs once (`console.error`) and clears
loading, leaving the list at its initial empty value. -/
def fetchPokemon (listResp : Except String ListResponse)
    (detailResp : String → Except String PokemonDetail) : LoadState :=
  match loadResults listResp detailResp with
  | Except.ok ds =>
    { pokemon := ds.map normalizePokemon, loading := false, errorLogs := 0 }
  | Except.error _ =>
    { pokemon := initialLoadState.pokemon, loading := false, errorLogs := 1 }

/- ## `Promise.all` with an explicit completion order (for the ordering claim) -/

/-- `Promise.all` keeps one result slot per request; each completion writes
its own slot, in completion order. Starting from all-`none` slots, process
the completions listed in `order` (indices into `jobs`). -/
def promiseAllSlots {α β : Type} (jobs : List α) (f : α → β) (order : List Nat) :
    List (Option β) :=
  order.foldl (fun slots j => slots.set j (jobs[j]?.map f)) (List.replicate jobs.length none)

/-- The assembled result once every slot has been written: read the slots out
positionally. -/
def promiseAll {α β : Type} (jobs : List α) (f : α → β) (order : List Nat) : List β :=
  (promiseAllSlots jobs f order).filterMap id

/- ## Selection state (`selectedPokemon`, lines 19, 125, 169, 176) -/

/-- The user events that touch `selectedPokemon`: clicking a card
(`setSelectedPokemon(p)`, line 125) and dismissing via the close button or
the backdrop (`setSelectedPokemon(null)`, lines 169/176). -/
inductive SelEvent where
  | select (p : Pokemon)
  | dismiss
deriving DecidableEq, Repr

/-- `useState<Pokemon | null>(null)` transitions: a click stores the clicked
entity regardless of the previous value; dismiss stores `null`. -/
def selStep (_s : Option Pokemon) : SelEvent → Option Pokemon
  | SelEvent.select p => some p
  | SelEvent.dismiss => none

/-- Initial selection state (`useState(null)`). -/
def initialSelection : Option Pokemon := none

/-- Number of entities currently selected. -/
def selectedCount : Option Pokemon → Nat
  | none => 0
  | some _ => 1

/- ## Display conversion (lines 211 and 217) -/

/-- Embedding of the rendered text of `selectedPokemon.height / 10` (and
likewise for weight): JS prints the quotient `n / 10` in shortest decimal
form, i.e. the integer part alone when `n` is a multiple of 10, otherwise
with a single tenths digit. -/
def displayDivTen (n : Nat) : String :=
  if n % 10 = 0 then natToString (n / 10)
  else natToString (n / 10) ++ "." ++ natToString (n % 10)

/- ## Sample data (concrete instances used to exercise the theorems) -/

def sampleDetail1 : PokemonDetail :=
  { id := 1, name := "bulbasaur", types := [⟨⟨"grass"⟩⟩, ⟨⟨"poison"⟩⟩]
    sprites := { front_default := some "b.png", other := ⟨⟨some "bArt.png"⟩⟩ }
    height := 7, weight := 69 }

def sampleDetail2 : PokemonDetail :=
  { id := 2, name := "ivysaur", types := [⟨⟨"grass"⟩⟩, ⟨⟨"poison"⟩⟩]
    sprites := { front_default := some "i.png", other := ⟨⟨some "iArt.png"⟩⟩ }
    height := 10, weight := 130 }

def sampleDetail25 : PokemonDetail :=
  { id := 25, name := "pikachu", types := [⟨⟨"electric"⟩⟩]
    sprites := { front_default := some "p.png", other := ⟨⟨some "pArt.png"⟩⟩ }
    height := 4, weight := 60 }

def samplePokemon1 : Pokemon := normalizePokemon sampleDetail1

def sampleRefs : List PokemonRef := [⟨"u1"⟩, ⟨"u2"⟩, ⟨"u25"⟩]

def sampleFetch : String → PokemonDetail := fun u =>
  if u = "u1" then sampleDetail1 else if u = "u2" then sampleDetail2 else sampleDetail25

/-- A detail fetcher whose second reference fails (the spec's failure
scenario). -/
def sampleFetchFail2 : String → Except String PokemonDetail := fun u =>
  if u = "u2" then Except.error "network error" else Except.ok (sampleFetch u)

/-- Detail response whose preferred artwork reference is the empty string
while the low-resolution sprite is present. -/
def detailArtEmpty : PokemonDetail :=
  { id := 7, name := "squirtle", types := [⟨⟨"water"⟩⟩]
    sprites := { front_default := some "fallback.png", other := ⟨⟨some ""⟩⟩ }
    height := 5, weight := 90 }

/-- Detail response whose preferred artwork reference is absent (`null`). -/
def detailArtAbsent : PokemonDetail :=
  { id := 4, name := "charmander", types := [⟨⟨"fire"⟩⟩]
    sprites := { front_default := some "char.png", other := ⟨⟨none⟩⟩ }
    height := 6, weight := 85 }

/-- Detail response whose preferred artwork reference is present and
non-empty. -/
def detailArtPresent : PokemonDetail :=
  { id := 5, name := "charmeleon", types := [⟨⟨"fire"⟩⟩]
    sprites := { front_default := some "cm.png", other := ⟨⟨some "art.png"⟩⟩ }
    height := 11, weight := 190 }

/- # Theorems -/

/- ## Character-level facts about lowercasing -/

theorem char_toNat_ofNat {n : Nat} (h : n.isValidChar) : (Char.ofNat n).toNat = n := by
  unfold Char.ofNat
  rw [dif_pos h]
  rfl

theorem char_toLower_of_digit {c : Char} (h : isDigitChar c) : c.toLower = c := by
  unfold isDigitChar at h
  unfold Char.toLower
  rw [if_neg]
  omega

theorem char_eq_of_digit_toLower {c : Char} (h : isDigitChar c.toLower) : c.toLower = c := by
  by_cases hc : c.toNat ≥ 65 ∧ c.toNat ≤ 90
  · exfalso
    have hval : (Char.ofNat (c.toNat + 32)).toNat = c.toNat + 32 :=
      char_toNat_ofNat (Or.inl (by omega))
    have : c.toLower = Char.ofNat (c.toNat + 32) := by
      unfold Char.toLower
      rw [if_pos hc]
    rw [this] at h
    unfold isDigitChar at h
    omega
  · unfold Char.toLower
    rw [if_neg hc]

theorem char_toLower_toUpper (c : Char) : c.toUpper.toLower = c.toLower := by
  by_cases hlo : c.toNat ≥ 97 ∧ c.toNat ≤ 122
  · have hup : c.toUpper = Char.ofNat (c.toNat - 32) := by
      unfold Char.toUpper
      rw [if_pos hlo]
    have hval : (Char.ofNat (c.toNat - 32)).toNat = c.toNat - 32 :=
      char_toNat_ofNat (Or.inl (by omega))
    have hlower : c.toLower = c := by
      unfold Char.toLower
      rw [if_neg (by omega)]
    rw [hup, hlower]
    unfold Char.toLower
    rw [if_pos (by omega), hval]
    have : c.toNat - 32 + 32 = c.toNat := by omega
    rw [this, Char.ofNat_toNat]
  · have hup : c.toUpper = c := by
      unfold Char.toUpper
      rw [if_neg hlo]
    rw [hup]

/- ## Digits of `natToString` -/

theorem natDigitsAux_digits :
    ∀ (fuel n : Nat), ∀ c ∈ natDigitsAux fuel n, isDigitChar c := by
  intro fuel
  induction fuel with
  | zero => intro n c hc; simp [natDigitsAux] at hc
  | succ fuel ih =>
    intro n c hc
    unfold natDigitsAux at hc
    by_cases hn : n = 0
    · simp [hn] at hc
    · rw [if_neg hn, List.mem_append] at hc
      rcases hc with hc | hc
      · exact ih _ c hc
      · have hr : n % 10 < 10 := Nat.mod_lt _ (by omega)
        have hval : (Char.ofNat (48 + n % 10)).toNat = 48 + n % 10 :=
          char_toNat_ofNat (Or.inl (by omega))
        rw [List.mem_singleton] at hc
        subst hc
        unfold isDigitChar
        omega

theorem natToString_digits (n : Nat) : ∀ c ∈ (natToString n).data, isDigitChar c := by
  intro c hc
  unfold natToString at hc
  by_cases hn : n = 0
  · rw [if_pos hn] at hc
    have : c = '0' := by simpa using hc
    subst this
    unfold isDigitChar
    refine ⟨?_, ?_⟩ <;> decide
  · rw [if_neg hn] at hc
    exact natDigitsAux_digits n n c hc

theorem map_toLower_eq_self {q : List Char} (h : ∀ c ∈ q, c.toLower = c) :
    q.map Char.toLower = q := by
  induction q with
  | nil => rfl
  | cons c q ih =>
    simp only [List.map_cons, List.cons.injEq]
    exact ⟨h c (List.mem_cons_self c q), ih fun x hx => h x (List.mem_cons_of_mem c hx)⟩

/-- Over a string of digits, lowercasing the needle does not change the
substring test: lowercasing fixes digits and never produces one. -/
theorem infix_map_toLower_digits {q s : List Char} (hs : ∀ c ∈ s, isDigitChar c) :
    q.map Char.toLower <:+: s ↔ q <:+: s := by
  constructor
  · intro h
    have hq : ∀ c ∈ q, c.toLower = c := fun c hc =>
      char_eq_of_digit_toLower (hs _ (h.subset (List.mem_map_of_mem _ hc)))
    rwa [map_toLower_eq_self hq] at h
  · intro h
    have hq : ∀ c ∈ q, c.toLower = c := fun c hc =>
      char_toLower_of_digit (hs _ (h.subset hc))
    rwa [map_toLower_eq_self hq]

/- ## Slot-writing semantics of `Promise.all` -/

theorem foldl_set_length {β : Type} (g : Nat → Option β) :
    ∀ (order : List Nat) (init : List (Option β)),
      (order.foldl (fun acc j => acc.set j (g j)) init).length = init.length := by
  intro order
  induction order with
  | nil => intro init; rfl
  | cons j rest ih =>
    intro init
    simp only [List.foldl_cons]
    rw [ih (init.set j (g j)), List.length_set]

theorem foldl_set_getElem? {β : Type} (g : Nat → Option β) :
    ∀ (order : List Nat) (init : List (Option β)) (i : Nat), i < init.length →
      (order.foldl (fun acc j => acc.set j (g j)) init)[i]? =
        if i ∈ order then some (g i) else init[i]? := by
  intro order
  induction order with
  | nil => intro init i _; simp
  | cons j rest ih =>
    intro init i hi
    simp only [List.foldl_cons]
    rw [ih (init.set j (g j)) i (by simpa using hi)]
    by_cases hmem : i ∈ rest
    · rw [if_pos hmem, if_pos (List.mem_cons_of_mem j hmem)]
    · rw [if_neg hmem]
      by_cases hij : i = j
      · subst hij
        rw [List.getElem?_set_self hi, if_pos (List.mem_cons_self i rest)]
      · rw [List.getElem?_set_ne (fun h => hij h.symm),
            if_neg (by simp [List.mem_cons, hij, hmem])]

/-- When every request index completes (in any order), each slot holds the
result for its own position. -/
theorem promiseAllSlots_perm {α β : Type} (jobs : List α) (f : α → β) (order : List Nat)
    (h : order.Perm (List.range jobs.length)) :
    promiseAllSlots jobs f order = jobs.map (fun a => some (f a)) := by
  apply List.ext_getElem?
  intro i
  by_cases hi : i < jobs.length
  · have hmem : i ∈ order := by
      rw [h.mem_iff, List.mem_range]
      exact hi
    rw [promiseAllSlots, foldl_set_getElem? _ order _ i (by simp [hi]), if_pos hmem]
    simp [List.getElem?_eq_getElem hi]
  · have h1 : (promiseAllSlots jobs f order).length = jobs.length := by
      rw [promiseAllSlots, foldl_set_length, List.length_replicate]
    have h2 : (jobs.map (fun a => some (f a))).length = jobs.length := by
      rw [List.length_map]
    rw [List.getElem?_eq_none (by omega), List.getElem?_eq_none (by omega)]

/-- Fork–join reassembly: for any completion order that is a permutation of
the request indices, `Promise.all` yields the results in request order. -/
theorem promiseAll_perm {α β : Type} (jobs : List α) (f : α → β) (order : List Nat)
    (h : order.Perm (List.range jobs.length)) :
    promiseAll jobs f order = jobs.map f := by
  rw [promiseAll, promiseAllSlots_perm jobs f order h]
  clear h
  induction jobs with
  | nil => rfl
  | cons a jobs ih => simp only [List.map_cons, List.filterMap_cons, id, ih]

/- ## Failure of the detail traversal -/

theorem fetchAllDetails_error {detailResp : String → Except String PokemonDetail}
    {rs : List PokemonRef} (h : ∃ r ∈ rs, ∃ e, detailResp r.url = Except.error e) :
    ∃ e, fetchAllDetails detailResp rs = Except.error e := by
  induction rs with
  | nil => simp at h
  | cons r rs ih =>
    obtain ⟨r', hr', e, he⟩ := h
    rw [List.mem_cons] at hr'
    unfold fetchAllDetails
    cases hd : detailResp r.url with
    | error e' => exact ⟨e', rfl⟩
    | ok d =>
      rcases hr' with rfl | hr'
      · rw [hd] at he
        cases he
      · obtain ⟨e'', he''⟩ := ih ⟨r', hr', e, he⟩
        rw [he'']
        exact ⟨e'', rfl⟩

/- ## String-level case lemmas -/

theorem jsToLower_jsToUpper (q : String) : jsToLower (jsToUpper q) = jsToLower q := by
  show (⟨(q.data.map Char.toUpper).map Char.toLower⟩ : String) = ⟨q.data.map Char.toLower⟩
  rw [List.map_map]
  exact congrArg String.mk (List.map_congr_left fun c _ => char_toLower_toUpper c)

theorem jsToUpper_eq_empty {q : String} (h : jsToUpper q = "") : q = "" := by
  have hd : q.data.map Char.toUpper = [] := congrArg String.data h
  have hq : q.data = [] := by
    cases hdata : q.data
    · rfl
    · rw [hdata] at hd
      simp at hd
  obtain ⟨l⟩ := q
  simp only [String.data] at hq
  rw [hq]

/- ## Claim theorems -/

/-- C1: for every loaded entity list and every non-empty query, an entity is
in the filter result iff it is in the list and at least one test succeeds:
the lowercased query is a substring of the lowercased name, or the query is
a substring of the decimal form of the id, or the lowercased query is a
substring of the lowercased form of some category entry. -/
theorem c1_filter_membership (L : List Pokemon) (q : String) (hq : q ≠ "")
    (p : Pokemon) :
    p ∈ filteredPokemon L q ↔
      p ∈ L ∧
        (isSubstrOf (jsToLower q) (jsToLower p.name) ∨
         isSubstrOf q (natToString p.id) ∨
         ∃ t ∈ p.types, isSubstrOf (jsToLower q) (jsToLower t)) := by
  unfold filteredPokemon
  rw [if_neg hq, List.mem_filter]
  refine and_congr_right fun _ => ?_
  have hid : ((jsToLower q).data <:+: (natToString p.id).data) ↔
      (q.data <:+: (natToString p.id).data) :=
    infix_map_toLower_digits (natToString_digits p.id)
  simp only [pokemonMatches, strIncludes, isSubstrOf, Bool.or_eq_true,
    List.any_eq_true, decide_eq_true_eq]
  rw [hid, or_assoc]

theorem c1_filter_membership_witness :
    ("grass" ≠ "") ∧
      (samplePokemon1 ∈ filteredPokemon [samplePokemon1] "grass" ↔
        samplePokemon1 ∈ [samplePokemon1] ∧
          (isSubstrOf (jsToLower "grass") (jsToLower samplePokemon1.name) ∨
           isSubstrOf "grass" (natToString samplePokemon1.id) ∨
           ∃ t ∈ samplePokemon1.types, isSubstrOf (jsToLower "grass") (jsToLower t))) :=
  ⟨by decide, c1_filter_membership [samplePokemon1] "grass" (by decide) samplePokemon1⟩

/-- C2: if the list request fails, or any detail request fails, the whole
load fails atomically: loading is cleared, the canonical list stays empty,
and the failure is logged exactly once. The resulting `LoadState` carries no
error value at all, so nothing is surfaced to the presentation layer. -/
theorem c2_load_failure_atomic (listResp : Except String ListResponse)
    (detailResp : String → Except String PokemonDetail)
    (h : (∃ e, listResp = Except.error e) ∨
         (∃ data, listResp = Except.ok data ∧
            ∃ r ∈ data.results, ∃ e, detailResp r.url = Except.error e)) :
    fetchPokemon listResp detailResp =
      { pokemon := [], loading := false, errorLogs := 1 } := by
  unfold fetchPokemon
  rcases h with ⟨e, rfl⟩ | ⟨data, rfl, hfail⟩
  · rfl
  · obtain ⟨e', he'⟩ := fetchAllDetails_error hfail
    have hload : loadResults (Except.ok data) detailResp =
        fetchAllDetails detailResp data.results := rfl
    rw [hload, he']
    rfl

theorem c2_load_failure_atomic_witness :
    fetchPokemon (Except.ok ⟨sampleRefs⟩) sampleFetchFail2 =
      { pokemon := [], loading := false, errorLogs := 1 } :=
  c2_load_failure_atomic (Except.ok ⟨sampleRefs⟩) sampleFetchFail2
    (Or.inr ⟨⟨sampleRefs⟩, rfl, ⟨"u2"⟩, by decide, "network error", rfl⟩)

/-- C3: for every reference sequence and every completion order of the
concurrently issued detail fetches, the assembled canonical list equals the
references mapped positionally through fetch-and-normalize — results are
reassembled by position, not by arrival. -/
theorem c3_assembled_in_reference_order (refs : List PokemonRef)
    (g : String → PokemonDetail) (order : List Nat)
    (h : order.Perm (List.range refs.length)) :
    promiseAll refs (fun r => normalizePokemon (g r.url)) order =
      refs.map (fun r => normalizePokemon (g r.url)) :=
  promiseAll_perm refs _ order h

theorem c3_assembled_in_reference_order_witness :
    ([1, 0, 2] : List Nat).Perm (List.range sampleRefs.length) ∧
      promiseAll sampleRefs (fun r => normalizePokemon (sampleFetch r.url)) [1, 0, 2] =
        sampleRefs.map (fun r => normalizePokemon (sampleFetch r.url)) :=
  ⟨by decide, c3_assembled_in_reference_order sampleRefs sampleFetch [1, 0, 2] (by decide)⟩

/-- C4: the selection machine over `Option Pokemon` (`none` = Closed,
`some e` = Open(e)) starts Closed; a select from any state opens the
selected entity (replacing, never stacking, a previous one); dismiss from an
open state closes; and along any event sequence at most one entity is
selected. -/
theorem c4_selection_state_machine :
    initialSelection = none ∧
      (∀ (s : Option Pokemon) (p : Pokemon), selStep s (SelEvent.select p) = some p) ∧
      (∀ p : Pokemon, selStep (some p) SelEvent.dismiss = none) ∧
      (∀ events : List SelEvent, selectedCount (events.foldl selStep initialSelection) ≤ 1) := by
  refine ⟨rfl, fun _ _ => rfl, fun _ => rfl, fun events => ?_⟩
  cases events.foldl selStep initialSelection with
  | none => exact Nat.zero_le 1
  | some p => exact Nat.le_refl 1

/-- C5 counterexample: after a load failure with no query typed (loading
done, empty list, empty query), the empty-state message IS rendered — the
render condition never checks that the query is non-empty, contradicting the
claim that it is not shown while the query is empty. -/
theorem c5_empty_state_counterexample :
    emptyStateShown false [] "" = true ∧ ¬(("" : String) ≠ "") :=
  ⟨rfl, fun h => h rfl⟩

/-- C5 (amended): the empty-state message is displayed exactly when loading
is complete and the filtered result count is zero — with no condition on the
query being non-empty. -/
theorem c5_empty_state_amended (loading : Bool) (L : List Pokemon) (q : String) :
    emptyStateShown loading L q = true ↔
      loading = false ∧ (filteredPokemon L q).length = 0 := by
  unfold emptyStateShown
  cases loading <;> simp

/-- C6: filtering with the exactly-empty query returns the list unchanged,
and the emptiness test does no trimming: any non-empty query — a whitespace
one included — goes through the matching path. -/
theorem c6_empty_query_identity :
    (∀ L : List Pokemon, filteredPokemon L "" = L) ∧
      (∀ (L : List Pokemon) (q : String), q ≠ "" →
        filteredPokemon L q = L.filter (pokemonMatches q)) := by
  constructor
  · intro L
    rfl
  · intro L q hq
    unfold filteredPokemon
    rw [if_neg hq]

theorem c6_empty_query_identity_witness :
    filteredPokemon [samplePokemon1] "" = [samplePokemon1] ∧
      (" " ≠ "" ∧ filteredPokemon [samplePokemon1] " " =
        List.filter (pokemonMatches " ") [samplePokemon1]) :=
  ⟨c6_empty_query_identity.1 [samplePokemon1], by decide,
   c6_empty_query_identity.2 [samplePokemon1] " " (by decide)⟩

/-- C7: for every non-empty query, the filter result is a subsequence of the
input list — order preserved, no duplication, no insertion. -/
theorem c7_filter_sublist (L : List Pokemon) (q : String) (hq : q ≠ "") :
    (filteredPokemon L q).Sublist L := by
  unfold filteredPokemon
  rw [if_neg hq]
  exact List.filter_sublist L

theorem c7_filter_sublist_witness :
    ("pika" ≠ "") ∧ (filteredPokemon [samplePokemon1] "pika").Sublist [samplePokemon1] :=
  ⟨by decide, c7_filter_sublist [samplePokemon1] "pika" (by decide)⟩

/-- C8: uppercasing the query does not change the filter result. -/
theorem c8_filter_case_insensitive (L : List Pokemon) (q : String) :
    filteredPokemon L q = filteredPokemon L (jsToUpper q) := by
  by_cases hq : q = ""
  · subst hq
    rfl
  · have hq' : jsToUpper q ≠ "" := fun h => hq (jsToUpper_eq_empty h)
    unfold filteredPokemon
    rw [if_neg hq, if_neg hq']
    have hmatch : pokemonMatches (jsToUpper q) = pokemonMatches q := by
      funext p
      unfold pokemonMatches
      rw [jsToLower_jsToUpper]
    rw [hmatch]

/-- C9 counterexample: a present-but-empty preferred artwork reference also
triggers the fallback (JS `||` treats `""` as falsy), so the fallback is not
used *exactly* when the preferred reference is absent. -/
theorem c9_fallback_counterexample :
    detailArtEmpty.sprites.other.official_artwork.front_default = some "" ∧
      (some "" : Option String) ≠ none ∧
      (normalizePokemon detailArtEmpty).sprite ≠ some "" ∧
      (normalizePokemon detailArtEmpty).sprite = detailArtEmpty.sprites.front_default :=
  ⟨rfl, by decide, by decide, rfl⟩

/-- C9 (amended): normalization stores the preferred artwork reference when
it is present and non-empty, and falls back to the lower-resolution
reference exactly when the preferred one is absent or the empty string. -/
theorem c9_sprite_fallback (d : PokemonDetail) :
    ((d.sprites.other.official_artwork.front_default = none ∨
      d.sprites.other.official_artwork.front_default = some "") →
        (normalizePokemon d).sprite = d.sprites.front_default) ∧
      (∀ s : String, s ≠ "" →
        d.sprites.other.official_artwork.front_default = some s →
          (normalizePokemon d).sprite = some s) := by
  constructor
  · rintro (h | h) <;> simp [normalizePokemon, jsOrElse, h]
  · intro s hs h
    simp [normalizePokemon, jsOrElse, h, hs]

theorem c9_sprite_fallback_witness :
    (normalizePokemon detailArtAbsent).sprite = detailArtAbsent.sprites.front_default ∧
      (normalizePokemon detailArtPresent).sprite = some "art.png" :=
  ⟨(c9_sprite_fallback detailArtAbsent).1 (Or.inl rfl),
   (c9_sprite_fallback detailArtPresent).2 "art.png" (by decide) rfl⟩

/-- C10: the size metrics are stored verbatim at load time, and the
render-time division by 10 displays raw height 7 as "0.7" and raw weight 690
as "69". -/
theorem c10_display_conversion :
    (∀ d : PokemonDetail, (normalizePokemon d).height = d.height ∧
        (normalizePokemon d).weight = d.weight) ∧
      displayDivTen 7 = "0.7" ∧ displayDivTen 690 = "69" :=
  ⟨fun _ => ⟨rfl, rfl⟩, by decide, by decide⟩

end Pokedex
